import Mathlib

/-! Verification of the mongoose-ai similarity-search subsystem.

A shallow embedding of the similarity-search layer of the `mongoose-ai`
repository: the cosine-similarity utility, the two search executors
(`performVectorSearch` building a staged aggregation pipeline, and
`performInMemorySearch` scanning client-side), the strategy router
(`determineSearchMethod` with its per-handle capability cache), and the
orchestration entry points (`semanticSearch`, `findSimilar`) of the plugin.

Numbers are idealised as real numbers (the source computes with IEEE
doubles and `Math.sqrt`).  A document's embedding field is modelled as an
`Option (List ℝ)` (`none` = the field is absent).  Store behaviour that
lives outside the repository (the MongoDB aggregation engine) is modelled
stage by stage; the `$vectorSearch` stage scores candidates with cosine
similarity, which is the metric the plugin configures (`similarity:
"cosine"`).  Failures of external calls are threaded in as explicit
`Except`/`Option` parameters of the environment.
-/

namespace MongooseAI

noncomputable section

/-- A stored document: an identity plus the (optional) embedding stored
under the AI field, mirroring `doc[fieldName]?.embedding`. -/
structure Doc where
  id : ℕ
  embedding : Option (List ℝ)

/-- The options object of `semanticSearch`/`performVectorSearch`/
`performInMemorySearch` (source: `SemanticSearchOptions`), after the
destructuring defaults `limit = 10`, `threshold = 0.7`, `filter = {}`
have been applied.  `filter = none` models the empty filter object `{}`;
`numCandidates = none` and `useVectorSearch = none` model `undefined`. -/
structure SearchOptions where
  limit : ℕ := 10
  threshold : ℝ := 0.7
  filter : Option (Doc → Bool) := none
  indexName : String := "vector_index"
  numCandidates : Option ℕ := none
  useVectorSearch : Option Bool := none

/-- One shaped result (source: `SearchResult`): the document, its
similarity, and the derived `metadata.distance = 1 - similarity`. -/
structure RankedResult where
  document : Doc
  similarity : ℝ
  distance : ℝ

/-- `cosineSimilarity(a, b)` from `src/utils/vector-search.ts`.
The arguments are `Option`s so that the `!a || !b` guard on absent
arguments is representable; `a.length !== b.length` is the second guard.
The loop accumulates `dotProduct`, `normA`, `normB`; the result is
`dotProduct / (Math.sqrt(normA) * Math.sqrt(normB))` with an exact-zero
test on the denominator. -/
def cosineSimilarity (a b : Option (List ℝ)) : ℝ :=
  match a, b with
  | none, _ => 0
  | _, none => 0
  | some va, some vb =>
    if va.length ≠ vb.length then 0
    else
      let dotProduct := (List.zipWith (· * ·) va vb).sum
      let normA := (va.map (fun x => x * x)).sum
      let normB := (vb.map (fun x => x * x)).sum
      let denominator := Real.sqrt normA * Real.sqrt normB
      if denominator = 0 then 0 else dotProduct / denominator

/-- Sum of squares of a list of reals is nonnegative. -/
lemma sumSq_nonneg (l : List ℝ) : 0 ≤ (l.map (fun x => x * x)).sum := by
  apply List.sum_nonneg
  intro x hx
  rcases List.mem_map.mp hx with ⟨y, _, rfl⟩
  exact mul_self_nonneg y

/-- If some entry of `l` is nonzero then the sum of squares is positive. -/
lemma sumSq_pos_of_mem {l : List ℝ} {x : ℝ} (hx : x ∈ l) (hx0 : x ≠ 0) :
    0 < (l.map (fun x => x * x)).sum := by
  have hmem : x * x ∈ l.map (fun y => y * y) := List.mem_map_of_mem _ hx
  have hle : x * x ≤ (l.map (fun x => x * x)).sum := by
    apply List.single_le_sum _ _ hmem
    intro y hy
    rcases List.mem_map.mp hy with ⟨z, _, rfl⟩
    exact mul_self_nonneg z
  exact lt_of_lt_of_le (mul_self_pos.mpr hx0) hle

lemma cos_one_one : cosineSimilarity (some [1]) (some [1]) = 1 := by
  simp [cosineSimilarity]

lemma cos_one_negone : cosineSimilarity (some [1]) (some [-1]) = -1 := by
  simp [cosineSimilarity]

lemma cos_e1_e1 : cosineSimilarity (some [1, 0]) (some [1, 0]) = 1 := by
  simp [cosineSimilarity]

lemma cos_e1_34 : cosineSimilarity (some [1, 0]) (some [3, 4]) = 3 / 5 := by
  have h25 : Real.sqrt 25 = 5 := by
    rw [show (25 : ℝ) = 5 ^ 2 by norm_num, Real.sqrt_sq (by norm_num)]
  simp [cosineSimilarity]
  norm_num [h25]

/-! Sorting.

Both executors sort by similarity, descending (source:
`results.sort((a, b) => b.similarity - a.similarity)` and the `$sort:
{similarity: -1}` pipeline stage).  We model the sort as an insertion
sort keyed by a real-valued projection; the source relies only on the
comparator, and tie order is explicitly unspecified (spec §9). -/

/-- Insert `x` into `l`, keeping `l`'s descending-by-`key` order. -/
def insertByKey {α : Type} (key : α → ℝ) (x : α) : List α → List α
  | [] => [x]
  | y :: ys => if key x ≤ key y then y :: insertByKey key x ys else x :: y :: ys

/-- Sort a list descending by `key`. -/
def sortByKeyDesc {α : Type} (key : α → ℝ) (l : List α) : List α :=
  l.foldr (insertByKey key) []

lemma mem_insertByKey {α : Type} {key : α → ℝ} {x a : α} :
    ∀ {l : List α}, a ∈ insertByKey key x l ↔ a = x ∨ a ∈ l := by
  intro l
  induction l with
  | nil => simp [insertByKey]
  | cons y ys ih =>
    by_cases h : key x ≤ key y
    · simp [insertByKey, h, ih]
      tauto
    · simp [insertByKey, h]

lemma sorted_insertByKey {α : Type} (key : α → ℝ) (x : α) :
    ∀ {l : List α}, l.Sorted (fun a b => key b ≤ key a) →
      (insertByKey key x l).Sorted (fun a b => key b ≤ key a) := by
  intro l
  induction l with
  | nil => intro _; simp [insertByKey]
  | cons y ys ih =>
    intro hs
    rw [List.sorted_cons] at hs
    obtain ⟨hy, hys⟩ := hs
    by_cases h : key x ≤ key y
    · rw [insertByKey, if_pos h, List.sorted_cons]
      refine ⟨?_, ih hys⟩
      intro b hb
      rcases mem_insertByKey.mp hb with rfl | hb
      · exact h
      · exact hy b hb
    · rw [insertByKey, if_neg h, List.sorted_cons]
      push_neg at h
      refine ⟨?_, List.sorted_cons.mpr ⟨hy, hys⟩⟩
      intro b hb
      rcases List.mem_cons.mp hb with rfl | hb
      · exact le_of_lt h
      · exact le_trans (hy b hb) (le_of_lt h)

lemma sorted_sortByKeyDesc {α : Type} (key : α → ℝ) (l : List α) :
    (sortByKeyDesc key l).Sorted (fun a b => key b ≤ key a) := by
  induction l with
  | nil => simp [sortByKeyDesc]
  | cons y ys ih => exact sorted_insertByKey key y ih

lemma mem_sortByKeyDesc {α : Type} {key : α → ℝ} {a : α} :
    ∀ {l : List α}, a ∈ sortByKeyDesc key l ↔ a ∈ l := by
  intro l
  induction l with
  | nil => simp [sortByKeyDesc]
  | cons y ys ih =>
    show a ∈ insertByKey key y (sortByKeyDesc key ys) ↔ _
    rw [mem_insertByKey]
    simp [ih]

/-! The indexed executor's pipeline (`performVectorSearch`).

The source builds a staged aggregation pipeline (an array of stage
objects) and hands it to the store.  `Stage` mirrors that array element
by element; `runStage`/`runPipeline` model the store's execution of the
stages.  The `$vectorSearch` stage considers the nearest `numCandidates`
candidates possessing an embedding and returns at most `limit` of them,
each carrying its similarity score (`$meta: "vectorSearchScore"`, read by
the following `$addFields` stage); per the plugin's index configuration
(`similarity: "cosine"`) the score is modelled as cosine similarity. -/

inductive Stage where
  | vectorSearch (indexName path : String) (numCandidates lim : ℕ)
  | addFieldsSimilarity
  | matchThreshold (threshold : ℝ)
  | matchFilter (p : Doc → Bool)
  | sortBySimilarityDesc
  | limitGate (n : ℕ)

/-- The stage array built by `performVectorSearch`, in push order:
`$vectorSearch` (with `numCandidates: Math.max(numCandidates, limit)` and
`limit: limit`), `$addFields` for the score, a `$match` on the threshold
only when `threshold > 0`, a `$match` for the extra filter only when the
filter object is non-empty, `$sort` by similarity descending, `$limit`. -/
def vectorSearchPipeline (field : String) (opts : SearchOptions) : List Stage :=
  let lim := opts.limit
  let numCandidates := opts.numCandidates.getD (lim * 10)
  let pipeline := [Stage.vectorSearch opts.indexName (field ++ ".embedding")
    (max numCandidates lim) lim]
  let pipeline := pipeline ++ [Stage.addFieldsSimilarity]
  let pipeline :=
    if 0 < opts.threshold then pipeline ++ [Stage.matchThreshold opts.threshold]
    else pipeline
  let pipeline :=
    match opts.filter with
    | some p => pipeline ++ [Stage.matchFilter p]
    | none => pipeline
  let pipeline := pipeline ++ [Stage.sortBySimilarityDesc]
  pipeline ++ [Stage.limitGate lim]

/-- A candidate together with its annotated similarity score. -/
abbrev ScoredDoc := Doc × ℝ

/-- The score the index assigns a candidate for query vector `q`. -/
def docScore (q : List ℝ) (d : Doc) : ℝ := cosineSimilarity (some q) d.embedding

/-- Store-side execution of one pipeline stage. -/
def runStage (docs : List Doc) (q : List ℝ) (st : List ScoredDoc) :
    Stage → List ScoredDoc
  | .vectorSearch _ _ numCandidates lim =>
    (((sortByKeyDesc Prod.snd
        ((docs.filter (fun d => d.embedding.isSome)).map
          (fun d => (d, docScore q d)))).take numCandidates).take lim)
  | .addFieldsSimilarity => st
  | .matchThreshold t => st.filter (fun c => t ≤ c.2)
  | .matchFilter p => st.filter (fun c => p c.1)
  | .sortBySimilarityDesc => sortByKeyDesc Prod.snd st
  | .limitGate n => st.take n

/-- Store-side execution of a whole pipeline over collection `docs`. -/
def runPipeline (docs : List Doc) (q : List ℝ) (stages : List Stage) :
    List ScoredDoc :=
  stages.foldl (runStage docs q) []

/-- Result shaping shared by both executors (source: the `results.map`
in `performVectorSearch`, and the object pushed by
`performInMemorySearch`): document, similarity, `distance = 1 - similarity`. -/
def shapeResult (c : ScoredDoc) : RankedResult := ⟨c.1, c.2, 1 - c.2⟩

/-- `performVectorSearch`'s successful result: the built pipeline,
executed by the store, mapped through the result shaper. -/
def performVectorSearchResults (field : String) (docs : List Doc) (q : List ℝ)
    (opts : SearchOptions) : List RankedResult :=
  (runPipeline docs q (vectorSearchPipeline field opts)).map shapeResult

/-! The brute-force executor (`performInMemorySearch`). -/

/-- Evaluate the extra filter: `none` is the empty filter object `{}`,
which matches every document. -/
def matchesFilter (f : Option (Doc → Bool)) (d : Doc) : Bool :=
  match f with
  | some p => p d
  | none => true

/-- `performInMemorySearch` from `src/utils/vector-search.ts`: fetch the
documents matching the extra filter that have an embedding
(`{$exists: true}`), compute cosine similarity for each, keep those with
`similarity >= threshold`, sort descending, truncate to `limit`. -/
def performInMemorySearch (docs : List Doc) (q : List ℝ) (opts : SearchOptions) :
    List RankedResult :=
  let found := docs.filter (fun d => matchesFilter opts.filter d && d.embedding.isSome)
  let results := found.filterMap (fun d =>
    match d.embedding with
    | none => none
    | some emb =>
      let s := cosineSimilarity (some q) (some emb)
      if opts.threshold ≤ s then some ⟨d, s, 1 - s⟩ else none)
  (sortByKeyDesc RankedResult.similarity results).take opts.limit

/-- The candidate pool of the `$vectorSearch` stage for collection
`docs` and query `q`: the documents carrying an embedding, scored and
ordered descending by score. -/
def scoredPool (docs : List Doc) (q : List ℝ) : List ScoredDoc :=
  sortByKeyDesc Prod.snd
    ((docs.filter (fun d => d.embedding.isSome)).map (fun d => (d, docScore q d)))

/-- Closed form of the indexed pipeline's execution: the `$vectorSearch`
stage takes the `max numCandidates limit` nearest candidates and returns
at most `limit` of them; then the threshold filter (when `threshold > 0`),
the extra filter (when present), the sort, and the final `$limit` apply in
that order. -/
lemma runPipeline_vectorSearch_eq (field : String) (docs : List Doc)
    (q : List ℝ) (opts : SearchOptions) :
    runPipeline docs q (vectorSearchPipeline field opts) =
      (let fetched := ((scoredPool docs q).take
          (max (opts.numCandidates.getD (opts.limit * 10)) opts.limit)).take opts.limit
       let afterThreshold :=
         if 0 < opts.threshold then fetched.filter (fun c => opts.threshold ≤ c.2)
         else fetched
       let afterFilter :=
         match opts.filter with
         | some p => afterThreshold.filter (fun c => p c.1)
         | none => afterThreshold
       (sortByKeyDesc Prod.snd afterFilter).take opts.limit) := by
  by_cases ht : 0 < opts.threshold <;> rcases hf : opts.filter with _ | p <;>
    simp [runPipeline, vectorSearchPipeline, scoredPool, runStage, ht, hf,
      List.foldl_append]

/-- Modelled from the spec: the pipeline order claim C2 describes —
the nearest-candidate stage passes the whole pool of up to
`max numCandidates limit` candidates onward, and no truncation to
`limit` happens before the threshold filter; then threshold filter
(omitted iff `threshold ≤ 0`), extra filter, sort descending, truncate
to `limit`. -/
def specOrderedVectorSearch (docs : List Doc) (q : List ℝ)
    (opts : SearchOptions) : List RankedResult :=
  let pool := (scoredPool docs q).take
    (max (opts.numCandidates.getD (opts.limit * 10)) opts.limit)
  let afterThreshold :=
    if 0 < opts.threshold then pool.filter (fun c => opts.threshold ≤ c.2)
    else pool
  let afterFilter :=
    match opts.filter with
    | some p => afterThreshold.filter (fun c => p c.1)
    | none => afterThreshold
  ((sortByKeyDesc Prod.snd afterFilter).take opts.limit).map shapeResult

/-! Strategy router (`determineSearchMethod`) and capability cache.

The plugin keeps a process-wide `WeakMap` from model handle to a boolean
capability; we model the slice of that cache for one handle as an
`Option Bool`, threaded in and out.  The probe
(`detectVectorSearchSupport`) is an external call; its observed outcome
is an `Except String Bool` parameter, with the `.error` case standing
for the `try/catch` in `determineSearchMethod` catching a throw.
`SearchEvent`s are a ghost trace of the externally visible steps. -/

inductive SearchEvent where
  | strategy
  | probe
  | ensureIndex
  | indexedQuery
  | bruteForce
deriving DecidableEq

/-- `determineSearchMethod` from the plugin: collection-level disable
first, then the per-call override, then the cached capability, and only
then the probe — whose outcome (or failure, reduced to `false`) is
memoized.  Returns the decision, the updated cache, and the trace. -/
def determineSearchMethod (enabled : Bool) (useVectorSearch : Option Bool)
    (cache : Option Bool) (probe : Except String Bool) :
    Bool × Option Bool × List SearchEvent :=
  if enabled = false then (false, cache, [])
  else
    match useVectorSearch with
    | some b => (b, cache, [])
    | none =>
      match cache with
      | some b => (b, cache, [])
      | none =>
        match probe with
        | .ok b => (b, some b, [.probe])
        | .error _ => (false, some false, [.probe])

/-- A sequence of `determineSearchMethod` calls on one handle, threading
the capability cache; each call supplies its own `enabled` flag and
per-call override, the probe outcome is fixed per handle.  Returns the
final cache and the number of probe invocations performed. -/
def runStrategyCalls (calls : List (Bool × Option Bool)) (cache : Option Bool)
    (probe : Except String Bool) : Option Bool × ℕ :=
  match calls with
  | [] => (cache, 0)
  | (en, ov) :: rest =>
    let r := determineSearchMethod en ov cache probe
    let rec' := runStrategyCalls rest r.2.1 probe
    (rec'.1, r.2.2.count .probe + rec'.2)

/-! Orchestration (`semanticSearch`, `findSimilar`).

The environment collects, for one call, the collection contents and the
observed outcomes of the external collaborators: the embedding
generator, the capability probe, and the indexed query execution
(`model.aggregate`).  `indexedFailure = some e` means the aggregate call
throws `e`; `performVectorSearch` logs such an error and rethrows it
unchanged.  Index provisioning (`ensureVectorIndex` →
`createVectorIndex`) swallows every failure, so only its occurrence is
traced.  Errors are strings (the `message` of the thrown `Error`). -/

structure SearchEnv where
  docs : List Doc
  field : String
  indexName : String := "vector_index"
  enabled : Bool := true
  cache : Option Bool := none
  probe : Except String Bool := .ok false
  embedding : Except String (List ℝ) := .error "no embedding"
  indexedFailure : Option String := none

/-- Effective `numCandidates` passed by the orchestration:
`options.numCandidates || limit * 10` (note `0` is falsy). -/
def effNumCandidates (opts : SearchOptions) : ℕ :=
  match opts.numCandidates with
  | some n => if n = 0 then opts.limit * 10 else n
  | none => opts.limit * 10

/-- `performVectorSearch` as a fallible call: when the store's aggregate
execution throws, the executor logs and rethrows the same error;
otherwise it returns the shaped pipeline results. -/
def performVectorSearchExec (field : String) (docs : List Doc) (q : List ℝ)
    (opts : SearchOptions) (failure : Option String) :
    Except String (List RankedResult) :=
  match failure with
  | some e => .error e
  | none => .ok (performVectorSearchResults field docs q opts)

/-- The static `semanticSearch(query, options)` added by the plugin:
guard on the query string, then inside one `try` block generate the
query embedding, run `determineSearchMethod`, and dispatch to exactly
one executor (with `ensureVectorIndex` first on the indexed path);
any error thrown inside the `try` is rethrown as
`"Semantic search failed: " + message`.  Returns the outcome, the
updated capability cache, and the trace of steps performed. -/
def semanticSearch (env : SearchEnv) (query : String) (opts : SearchOptions) :
    Except String (List RankedResult) × Option Bool × List SearchEvent :=
  if query = "" then (.error "Query string is required", env.cache, [])
  else
    match env.embedding with
    | .error e => (.error ("Semantic search failed: " ++ e), env.cache, [])
    | .ok queryEmbedding =>
      let dec := determineSearchMethod env.enabled opts.useVectorSearch env.cache env.probe
      let evs := SearchEvent.strategy :: dec.2.2
      if dec.1 then
        match performVectorSearchExec env.field env.docs queryEmbedding
          { opts with indexName := env.indexName,
                      numCandidates := some (effNumCandidates opts) }
          env.indexedFailure with
        | .ok rs => (.ok rs, dec.2.1, evs ++ [.ensureIndex, .indexedQuery])
        | .error e => (.error ("Semantic search failed: " ++ e), dec.2.1,
            evs ++ [.ensureIndex, .indexedQuery])
      else
        (.ok (performInMemorySearch env.docs queryEmbedding opts), dec.2.1,
          evs ++ [.bruteForce])

/-- The static `findSimilar(document, options)` added by the plugin: the
reference-document and reference-embedding guards throw before the `try`
block (so unwrapped, and before any strategy decision, provisioning or
store access); then the same dispatch as `semanticSearch`, seeded with
the reference embedding and with the reference document excluded via the
merged filter; errors inside the `try` are rethrown as
`"Find similar failed: " + message`. -/
def findSimilar (env : SearchEnv) (document : Option Doc) (opts : SearchOptions) :
    Except String (List RankedResult) × Option Bool × List SearchEvent :=
  match document with
  | none => (.error "Reference document is required", env.cache, [])
  | some refDoc =>
    match refDoc.embedding with
    | none => (.error "Document has no embedding", env.cache, [])
    | some refEmbedding =>
      let mergedFilter : Doc → Bool := fun c =>
        matchesFilter opts.filter c && c.id ≠ refDoc.id
      let dec := determineSearchMethod env.enabled opts.useVectorSearch env.cache env.probe
      let evs := SearchEvent.strategy :: dec.2.2
      if dec.1 then
        match performVectorSearchExec env.field env.docs refEmbedding
          { opts with filter := some mergedFilter,
                      indexName := env.indexName,
                      numCandidates := some (effNumCandidates opts) }
          env.indexedFailure with
        | .ok rs => (.ok rs, dec.2.1, evs ++ [.ensureIndex, .indexedQuery])
        | .error e => (.error ("Find similar failed: " ++ e), dec.2.1,
            evs ++ [.ensureIndex, .indexedQuery])
      else
        (.ok (performInMemorySearch env.docs refEmbedding
            { opts with filter := some mergedFilter }), dec.2.1,
          evs ++ [.bruteForce])

/-! Helper lemmas about the router. -/

/-- A `determineSearchMethod` call that starts with a populated cache
never probes and leaves the cache untouched, whatever the flags are. -/
lemma dsm_cache_some (en : Bool) (ov : Option Bool) (b : Bool)
    (probe : Except String Bool) :
    (determineSearchMethod en ov (some b) probe).2 = (some b, []) := by
  cases en <;> cases ov <;> simp [determineSearchMethod]

/-- A call sequence starting from a populated cache performs no probe
and preserves the cached value. -/
lemma runStrategyCalls_some (calls : List (Bool × Option Bool)) (b : Bool)
    (probe : Except String Bool) :
    runStrategyCalls calls (some b) probe = (some b, 0) := by
  induction calls with
  | nil => rfl
  | cons c rest ih =>
    obtain ⟨en, ov⟩ := c
    simp [runStrategyCalls, dsm_cache_some, ih]

/-- The router's trace never contains an executor event. -/
lemma bruteForce_not_mem_dsm (en : Bool) (ov : Option Bool) (c : Option Bool)
    (probe : Except String Bool) :
    SearchEvent.bruteForce ∉ (determineSearchMethod en ov c probe).2.2 := by
  cases en <;> cases ov <;> cases c <;> cases probe <;>
    simp [determineSearchMethod]

/-- C5: the strategy decision's priority order.  A collection-level
`enabled == false` forces brute force regardless of the per-call
override, the cache, and the probe; otherwise a set per-call override
`useVectorSearch` is returned exactly, regardless of cache and probe;
otherwise a cached capability decides; otherwise the probe's outcome
decides, with a probe failure reduced to brute force. -/
theorem strategy_priority :
    (∀ (ov : Option Bool) (cache : Option Bool) (probe : Except String Bool),
      (determineSearchMethod false ov cache probe).1 = false) ∧
    (∀ (b : Bool) (cache : Option Bool) (probe : Except String Bool),
      (determineSearchMethod true (some b) cache probe).1 = b) ∧
    (∀ (b : Bool) (probe : Except String Bool),
      (determineSearchMethod true none (some b) probe).1 = b) ∧
    (∀ b : Bool, (determineSearchMethod true none none (.ok b)).1 = b) ∧
    (∀ e : String, (determineSearchMethod true none none (.error e)).1 = false) := by
  refine ⟨?_, ?_, ?_, ?_, ?_⟩ <;> intros <;> rfl

/-- C8: capability memoization.  Any sequence of strategy-decision calls
on one handle starting from an empty cache performs at most one probe;
once the cache is populated, no call probes again and the cached value
persists; a call that reaches a populated cache returns exactly the
cached boolean without probing; and a probe failure is not propagated —
it is recorded in the cache as `false` and returned as `false`. -/
theorem capability_memoization :
    (∀ (calls : List (Bool × Option Bool)) (probe : Except String Bool),
      (runStrategyCalls calls none probe).2 ≤ 1) ∧
    (∀ (calls : List (Bool × Option Bool)) (b : Bool) (probe : Except String Bool),
      runStrategyCalls calls (some b) probe = (some b, 0)) ∧
    (∀ (b : Bool) (probe : Except String Bool),
      determineSearchMethod true none (some b) probe = (b, some b, [])) ∧
    (∀ e : String,
      determineSearchMethod true none none (.error e) = (false, some false, [.probe])) := by
  refine ⟨?_, runStrategyCalls_some, fun b probe => rfl, fun e => rfl⟩
  intro calls probe
  induction calls with
  | nil => simp [runStrategyCalls]
  | cons c rest ih =>
    obtain ⟨en, ov⟩ := c
    cases en <;> cases ov <;>
      simp [runStrategyCalls, determineSearchMethod, runStrategyCalls_some, ih]
    · cases probe <;>
        simp [runStrategyCalls, determineSearchMethod, runStrategyCalls_some]

/-- C10: `findSimilar`'s argument guards.  With an absent reference
document it returns the error `"Reference document is required"`; with a
reference document lacking an embedding it returns
`"Document has no embedding"`.  In both cases the capability cache is
untouched and the trace is empty: no strategy decision, no index
provisioning, no store query and no executor ran. -/
theorem findSimilar_guards :
    (∀ (env : SearchEnv) (opts : SearchOptions),
      findSimilar env none opts =
        (.error "Reference document is required", env.cache, [])) ∧
    (∀ (env : SearchEnv) (opts : SearchOptions) (d : Doc), d.embedding = none →
      findSimilar env (some d) opts =
        (.error "Document has no embedding", env.cache, [])) := by
  refine ⟨fun env opts => rfl, ?_⟩
  intro env opts d hd
  obtain ⟨i, emb⟩ := d
  cases emb with
  | none => rfl
  | some l => simp at hd

/-- Witness for C10 at a concrete input. -/
theorem findSimilar_guards_witness :
    (⟨5, none⟩ : Doc).embedding = none ∧
    findSimilar ⟨[], "f", "vector_index", true, none, .ok false,
        .error "no embedding", none⟩ (some ⟨5, none⟩) ⟨10, 0.7, none,
        "vector_index", none, none⟩ =
      (.error "Document has no embedding", none, []) :=
  ⟨rfl, findSimilar_guards.2 _ _ _ rfl⟩

/-! VectorMath claims. -/

/-- Zipping a list with itself by multiplication gives the squares. -/
lemma zipWith_mul_self (l : List ℝ) :
    List.zipWith (· * ·) l l = l.map (fun x => x * x) := by
  induction l with
  | nil => rfl
  | cons x xs ih => simp [ih]

/-- C6: `cosineSimilarity`'s guards.  An absent argument, an empty
vector, a length mismatch, or a zero sum of squares in either vector
(zero norm, hence a zero denominator) all yield exactly `0` — the
division is never performed in those cases. -/
theorem cosine_guard_zero :
    (∀ b, cosineSimilarity none b = 0) ∧
    (∀ a, cosineSimilarity a none = 0) ∧
    (∀ b, cosineSimilarity (some []) b = 0) ∧
    (∀ a, cosineSimilarity a (some []) = 0) ∧
    (∀ va vb : List ℝ, va.length ≠ vb.length →
      cosineSimilarity (some va) (some vb) = 0) ∧
    (∀ va vb : List ℝ,
      (va.map (fun x => x * x)).sum = 0 ∨ (vb.map (fun x => x * x)).sum = 0 →
      cosineSimilarity (some va) (some vb) = 0) := by
  refine ⟨fun b => by cases b <;> rfl, fun a => by cases a <;> rfl, ?_, ?_, ?_, ?_⟩
  · intro b
    rcases b with _ | (_ | ⟨x, l⟩) <;> simp [cosineSimilarity]
  · intro a
    rcases a with _ | (_ | ⟨x, l⟩) <;> simp [cosineSimilarity]
  · intro va vb h
    simp [cosineSimilarity, h]
  · intro va vb h
    by_cases hl : va.length ≠ vb.length
    · simp [cosineSimilarity, hl]
    · rcases h with h | h <;> simp [cosineSimilarity, hl, h]

/-- Witness for C6 at concrete inputs: a length mismatch and a zero
vector. -/
theorem cosine_guard_zero_witness :
    ([1] : List ℝ).length ≠ ([1, 2] : List ℝ).length ∧
    cosineSimilarity (some [1]) (some [1, 2]) = 0 ∧
    (([0] : List ℝ).map (fun x => x * x)).sum = 0 ∧
    cosineSimilarity (some [0]) (some [1]) = 0 :=
  ⟨by simp, cosine_guard_zero.2.2.2.2.1 [1] [1, 2] (by simp),
    by norm_num, cosine_guard_zero.2.2.2.2.2 [0] [1] (Or.inl (by norm_num))⟩

/-- C7: cosine similarity is symmetric in its two arguments, and a
vector with at least one nonzero entry has similarity exactly `1` with
itself. -/
theorem cosine_symm_self :
    (∀ a b, cosineSimilarity a b = cosineSimilarity b a) ∧
    (∀ v : List ℝ, (∃ x ∈ v, x ≠ 0) → cosineSimilarity (some v) (some v) = 1) := by
  constructor
  · intro a b
    rcases a with _ | va
    · rcases b with _ | vb <;> rfl
    rcases b with _ | vb
    · rfl
    by_cases hl : va.length = vb.length
    · have hdot : List.zipWith (· * ·) va vb = List.zipWith (· * ·) vb va :=
        List.zipWith_comm_of_comm _ mul_comm va vb
      simp only [cosineSimilarity, hl, hdot]
      rw [mul_comm (Real.sqrt ((vb.map (fun x => x * x)).sum))]
    · have hl' : vb.length ≠ va.length := fun h => hl h.symm
      simp [cosineSimilarity, hl, hl']
  · intro v hv
    obtain ⟨x, hx, hx0⟩ := hv
    have hpos : 0 < (v.map (fun x => x * x)).sum := sumSq_pos_of_mem hx hx0
    have hden : Real.sqrt ((v.map (fun x => x * x)).sum) *
        Real.sqrt ((v.map (fun x => x * x)).sum) = (v.map (fun x => x * x)).sum :=
      Real.mul_self_sqrt (le_of_lt hpos)
    simp only [cosineSimilarity, zipWith_mul_self]
    rw [if_neg (fun h => h rfl), hden,
      if_neg (ne_of_gt hpos), div_self (ne_of_gt hpos)]

/-- Witness for C7 at the concrete nonzero vector `[1]`. -/
theorem cosine_symm_self_witness :
    (∃ x ∈ ([1] : List ℝ), x ≠ 0) ∧ cosineSimilarity (some [1]) (some [1]) = 1 :=
  ⟨⟨1, by simp, one_ne_zero⟩, cosine_symm_self.2 [1] ⟨1, by simp, one_ne_zero⟩⟩

/-! Executor output shape claims. -/

/-- C4: both executors return a list ordered non-increasingly by
similarity whose length never exceeds the query's `limit`, whatever the
collection, the query vector and the options are. -/
theorem results_sorted_limited :
    ∀ (docs : List Doc) (q : List ℝ) (opts : SearchOptions),
      ((performInMemorySearch docs q opts).Pairwise
          (fun a b => b.similarity ≤ a.similarity) ∧
        (performInMemorySearch docs q opts).length ≤ opts.limit) ∧
      (∀ field : String,
        (performVectorSearchResults field docs q opts).Pairwise
            (fun a b => b.similarity ≤ a.similarity) ∧
          (performVectorSearchResults field docs q opts).length ≤ opts.limit) := by
  intro docs q opts
  constructor
  · exact ⟨List.Pairwise.take (sorted_sortByKeyDesc _ _), List.length_take_le _ _⟩
  · intro field
    rw [performVectorSearchResults, runPipeline_vectorSearch_eq]
    constructor
    · exact List.Pairwise.map shapeResult (fun a b h => h)
        (List.Pairwise.take (sorted_sortByKeyDesc _ _))
    · rw [List.length_map]
      exact List.length_take_le _ _

/-- Results of the indexed pipeline decompose into a shaped scored
candidate that passed the threshold filter (when that filter is in the
pipeline at all, i.e. when `threshold > 0`). -/
lemma mem_vectorSearchResults {field : String} {docs : List Doc} {q : List ℝ}
    {opts : SearchOptions} {r : RankedResult}
    (hr : r ∈ performVectorSearchResults field docs q opts) :
    ∃ c : ScoredDoc, r = shapeResult c ∧
      (0 < opts.threshold → opts.threshold ≤ c.2) := by
  rw [performVectorSearchResults, runPipeline_vectorSearch_eq] at hr
  simp only at hr
  obtain ⟨c, hc, rfl⟩ := List.mem_map.mp hr
  refine ⟨c, rfl, ?_⟩
  intro ht
  have hc2 := mem_sortByKeyDesc.mp (List.mem_of_mem_take hc)
  have hc3 : c ∈ (if 0 < opts.threshold then
      (((scoredPool docs q).take
          (max (opts.numCandidates.getD (opts.limit * 10)) opts.limit)).take
        opts.limit).filter (fun c => opts.threshold ≤ c.2)
    else ((scoredPool docs q).take
          (max (opts.numCandidates.getD (opts.limit * 10)) opts.limit)).take
        opts.limit) := by
    rcases hf : opts.filter with _ | p
    · rw [hf] at hc2
      exact hc2
    · rw [hf] at hc2
      exact List.mem_of_mem_filter hc2
  rw [if_pos ht] at hc3
  have := List.mem_filter.mp hc3
  exact of_decide_eq_true this.2

/-- C3 (amended): no brute-force result ever has similarity below the
threshold; no indexed result has similarity below the threshold
*provided `threshold > 0`* — when `threshold ≤ 0` the source omits the
`$match` threshold stage from the pipeline, so the exclusion does not
hold for the indexed executor there (see the counterexample). -/
theorem threshold_exclusion_amended :
    (∀ (docs : List Doc) (q : List ℝ) (opts : SearchOptions)
      (r : RankedResult), r ∈ performInMemorySearch docs q opts →
        opts.threshold ≤ r.similarity) ∧
    (∀ (field : String) (docs : List Doc) (q : List ℝ) (opts : SearchOptions)
      (r : RankedResult), 0 < opts.threshold →
        r ∈ performVectorSearchResults field docs q opts →
          opts.threshold ≤ r.similarity) := by
  constructor
  · intro docs q opts r hr
    have hr1 := mem_sortByKeyDesc.mp (List.mem_of_mem_take hr)
    obtain ⟨d, _, heq⟩ := List.mem_filterMap.mp hr1
    rcases hde : d.embedding with _ | emb
    · rw [hde] at heq
      simp at heq
    · rw [hde] at heq
      simp only [] at heq
      by_cases hs : opts.threshold ≤ cosineSimilarity (some q) (some emb)
      · rw [if_pos hs] at heq
        obtain rfl := Option.some.inj heq
        exact hs
      · rw [if_neg hs] at heq
        exact absurd heq (by simp)
  · intro field docs q opts r ht hr
    obtain ⟨c, rfl, hc⟩ := mem_vectorSearchResults hr
    exact hc ht

/-- Witness for C3 (amended) at concrete inputs on both executors. -/
theorem threshold_exclusion_witness :
    (⟨⟨0, some [1]⟩, 1, 0⟩ : RankedResult) ∈
        performInMemorySearch [⟨0, some [1]⟩] [1]
          ⟨10, 1 / 2, none, "vector_index", none, none⟩ ∧
    ((1 : ℝ) / 2 ≤ 1) ∧
    ((0 : ℝ) < 1 / 2) ∧
    (⟨⟨0, some [1]⟩, 1, 0⟩ : RankedResult) ∈
        performVectorSearchResults "f" [⟨0, some [1]⟩] [1]
          ⟨10, 1 / 2, none, "vector_index", none, none⟩ ∧
    ((1 : ℝ) / 2 ≤ 1) := by
  have hm : (⟨⟨0, some [1]⟩, 1, 0⟩ : RankedResult) ∈
      performInMemorySearch [⟨0, some [1]⟩] [1]
        ⟨10, 1 / 2, none, "vector_index", none, none⟩ := by
    norm_num [performInMemorySearch, matchesFilter, cos_one_one,
      sortByKeyDesc, insertByKey, List.filterMap_cons]
  have hv : (⟨⟨0, some [1]⟩, 1, 0⟩ : RankedResult) ∈
      performVectorSearchResults "f" [⟨0, some [1]⟩] [1]
        ⟨10, 1 / 2, none, "vector_index", none, none⟩ := by
    rw [performVectorSearchResults, runPipeline_vectorSearch_eq]
    norm_num [scoredPool, docScore, cos_one_one, sortByKeyDesc, insertByKey,
      shapeResult]
  exact ⟨hm, threshold_exclusion_amended.1 _ _ _ _ hm, by norm_num,
    hv, threshold_exclusion_amended.2 _ _ _ _ _ (by norm_num) hv⟩

/-- C3 (counterexample): with `threshold = 0` the indexed pipeline omits
the threshold filter, so a candidate with negative similarity — here the
opposite vector, similarity `-1 < 0 = threshold` — is returned by the
indexed executor. -/
theorem threshold_exclusion_cex :
    performVectorSearchResults "f" [⟨0, some [-1]⟩] [1]
        ⟨1, 0, none, "vector_index", none, none⟩ =
      [⟨⟨0, some [-1]⟩, -1, 2⟩] ∧
    ((-1 : ℝ) < 0) := by
  constructor
  · rw [performVectorSearchResults, runPipeline_vectorSearch_eq]
    norm_num [scoredPool, docScore, cos_one_negone, sortByKeyDesc, insertByKey,
      shapeResult]
  · norm_num

/-! Pipeline structure claims. -/

/-- C2 (amended): the indexed pipeline's stages, in order, are the
nearest-candidate `$vectorSearch` stage — which considers up to
`max(numCandidates, limit) ≥ limit` candidates but itself already
truncates its output to `limit` — then score annotation, the threshold
filter (present iff `threshold > 0`), the extra filter (present iff the
filter object is non-empty), the sort descending by similarity, and the
final truncation to `limit`.  Consequently at most `limit` candidates
ever reach the threshold filter. -/
theorem pipeline_stage_order_amended :
    ∀ (field : String) (opts : SearchOptions),
      vectorSearchPipeline field opts =
        [Stage.vectorSearch opts.indexName (field ++ ".embedding")
            (max (opts.numCandidates.getD (opts.limit * 10)) opts.limit) opts.limit,
          Stage.addFieldsSimilarity] ++
        (if 0 < opts.threshold then [Stage.matchThreshold opts.threshold] else []) ++
        (match opts.filter with
          | some p => [Stage.matchFilter p]
          | none => []) ++
        [Stage.sortBySimilarityDesc, Stage.limitGate opts.limit] ∧
      opts.limit ≤ max (opts.numCandidates.getD (opts.limit * 10)) opts.limit ∧
      (∀ (docs : List Doc) (q : List ℝ),
        runPipeline docs q (vectorSearchPipeline field opts) =
          (let fetched := ((scoredPool docs q).take
              (max (opts.numCandidates.getD (opts.limit * 10)) opts.limit)).take
                opts.limit
           let afterThreshold :=
             if 0 < opts.threshold then
               fetched.filter (fun c => opts.threshold ≤ c.2)
             else fetched
           let afterFilter :=
             match opts.filter with
             | some p => afterThreshold.filter (fun c => p c.1)
             | none => afterThreshold
           (sortByKeyDesc Prod.snd afterFilter).take opts.limit) ∧
        (((scoredPool docs q).take
            (max (opts.numCandidates.getD (opts.limit * 10)) opts.limit)).take
              opts.limit).length ≤ opts.limit) := by
  intro field opts
  refine ⟨?_, le_max_right _ _, ?_⟩
  · by_cases ht : 0 < opts.threshold <;> rcases hf : opts.filter with _ | p <;>
      simp [vectorSearchPipeline, ht, hf]
  · intro docs q
    exact ⟨runPipeline_vectorSearch_eq field docs q opts, List.length_take_le _ _⟩

/-- C2 (counterexample): the `$vectorSearch` stage truncates to `limit`
*before* the threshold filter.  With two above-threshold candidates,
`limit = 1`, and an extra filter that rejects the nearest candidate, the
code's pipeline returns nothing, while the order the claim describes
(no truncation to `limit` before the threshold filter) would return the
second candidate. -/
theorem pipeline_truncation_cex :
    performVectorSearchResults "f" [⟨1, some [1, 0]⟩, ⟨2, some [3, 4]⟩] [1, 0]
        ⟨1, 1 / 2, some (fun d => d.id != 1), "vector_index", none, none⟩ = [] ∧
    specOrderedVectorSearch [⟨1, some [1, 0]⟩, ⟨2, some [3, 4]⟩] [1, 0]
        ⟨1, 1 / 2, some (fun d => d.id != 1), "vector_index", none, none⟩ =
      [⟨⟨2, some [3, 4]⟩, 3 / 5, 2 / 5⟩] := by
  constructor
  · rw [performVectorSearchResults, runPipeline_vectorSearch_eq]
    norm_num [scoredPool, docScore, cos_e1_e1, cos_e1_34, sortByKeyDesc,
      insertByKey, shapeResult]
  · rw [specOrderedVectorSearch]
    norm_num [scoredPool, docScore, cos_e1_e1, cos_e1_34, sortByKeyDesc,
      insertByKey, shapeResult]

/-! Orchestration claims. -/

/-- A collection with a single embedded document, used as concrete input. -/
def sampleDoc : Doc := ⟨0, some [1]⟩

/-- Plain options: all defaults. -/
def optsPlain : SearchOptions := ⟨10, 7 / 10, none, "vector_index", none, none⟩

/-- Options forcing the indexed strategy via the per-call override. -/
def optsForceIndexed : SearchOptions :=
  ⟨10, 7 / 10, none, "vector_index", none, some true⟩

/-- Environment where the indexed-path aggregate call always throws
`"boom"` while embedding generation succeeds and the collection holds a
document the brute-force executor would return. -/
def envIndexedFail : SearchEnv :=
  ⟨[sampleDoc], "f", "vector_index", true, none, .ok true, .ok [1], some "boom"⟩

/-- Environment where the embedding generator fails with `"boom"`. -/
def envEmbedFail : SearchEnv :=
  ⟨[], "f", "vector_index", true, none, .ok false, .error "boom", none⟩

/-- C1 (amended): when the router chose the indexed strategy and the
indexed execution throws `e`, `semanticSearch` does not fall back to the
brute-force executor: it propagates the failure to the caller as the
wrapped error `"Semantic search failed: " ++ e`, and the brute-force
executor never runs in that call. -/
theorem indexed_failure_propagates :
    ∀ (env : SearchEnv) (query : String) (opts : SearchOptions)
      (qv : List ℝ) (e : String),
      query ≠ "" →
      env.embedding = .ok qv →
      (determineSearchMethod env.enabled opts.useVectorSearch env.cache
        env.probe).1 = true →
      env.indexedFailure = some e →
      (semanticSearch env query opts).1 =
        .error ("Semantic search failed: " ++ e) ∧
      SearchEvent.bruteForce ∉ (semanticSearch env query opts).2.2 := by
  intro env query opts qv e hq hemb hdec hfail
  have hnb := bruteForce_not_mem_dsm env.enabled opts.useVectorSearch env.cache
    env.probe
  simp [semanticSearch, if_neg hq, hemb, hdec, performVectorSearchExec, hfail, hnb]

/-- Witness for C1 (amended) at a concrete environment. -/
theorem indexed_failure_propagates_witness :
    ("hello" : String) ≠ "" ∧
    envIndexedFail.embedding = .ok [1] ∧
    (determineSearchMethod envIndexedFail.enabled optsForceIndexed.useVectorSearch
      envIndexedFail.cache envIndexedFail.probe).1 = true ∧
    envIndexedFail.indexedFailure = some "boom" ∧
    (semanticSearch envIndexedFail "hello" optsForceIndexed).1 =
      .error ("Semantic search failed: " ++ "boom") ∧
    SearchEvent.bruteForce ∉
      (semanticSearch envIndexedFail "hello" optsForceIndexed).2.2 := by
  have h := indexed_failure_propagates envIndexedFail "hello" optsForceIndexed
    [1] "boom" (by decide) rfl rfl rfl
  exact ⟨by decide, rfl, rfl, rfl, h.1, h.2⟩

/-- C1 (counterexample): in the environment above the indexed path was
chosen and throws, yet `semanticSearch` returns an error to the caller —
it does not return the brute-force executor's result on the same
query. -/
theorem fallback_on_indexed_failure_cex :
    (semanticSearch envIndexedFail "hello" optsForceIndexed).1 =
      .error "Semantic search failed: boom" ∧
    (semanticSearch envIndexedFail "hello" optsForceIndexed).1 ≠
      .ok (performInMemorySearch envIndexedFail.docs [1] optsForceIndexed) := by
  constructor
  · simp [semanticSearch, envIndexedFail, optsForceIndexed, determineSearchMethod,
      performVectorSearchExec]
  · simp [semanticSearch, envIndexedFail, optsForceIndexed, determineSearchMethod,
      performVectorSearchExec]

/-- C9 (amended): when embedding generation fails with `e`,
`semanticSearch` propagates it to the caller wrapped as
`"Semantic search failed: " ++ e` (not the generator's own error), the
capability cache is untouched, and the trace is empty — in particular no
search executor is invoked for that query. -/
theorem embedding_failure_wrapped :
    ∀ (env : SearchEnv) (query : String) (opts : SearchOptions) (e : String),
      query ≠ "" → env.embedding = .error e →
      semanticSearch env query opts =
        (.error ("Semantic search failed: " ++ e), env.cache, []) := by
  intro env query opts e hq he
  simp [semanticSearch, if_neg hq, he]

/-- Witness for C9 (amended) at a concrete environment. -/
theorem embedding_failure_wrapped_witness :
    ("hello" : String) ≠ "" ∧
    envEmbedFail.embedding = .error "boom" ∧
    semanticSearch envEmbedFail "hello" optsPlain =
      (.error ("Semantic search failed: " ++ "boom"), envEmbedFail.cache, []) :=
  ⟨by decide, rfl, embedding_failure_wrapped envEmbedFail "hello" optsPlain
    "boom" (by decide) rfl⟩

/-- C9 (counterexample): the caller does not receive the embedding
generator's own error `"boom"` — it receives the re-described
`"Semantic search failed: boom"`; no executor ran (empty trace). -/
theorem embedding_unwrapped_cex :
    (semanticSearch envEmbedFail "hello" optsPlain).1 =
      .error "Semantic search failed: boom" ∧
    (semanticSearch envEmbedFail "hello" optsPlain).1 ≠ .error "boom" ∧
    (semanticSearch envEmbedFail "hello" optsPlain).2.2 = [] := by
  refine ⟨?_, ?_, ?_⟩ <;> simp [semanticSearch, envEmbedFail, optsPlain]

end

end MongooseAI
